import Mathlib

/-!
# Verification of the BSP container / game-semantics layer of ericw-tools

Shallow embedding of `src/include/common/bspfile.hh` (and, where bodies are
not part of the given sources, models built from the specification, each
marked `Modelled from the spec:`).

Modelling conventions:
* machine integers (`int32_t`, `size_t`) are `Int` / `Nat`; where byte-level
  wrap-around matters the encoding is made explicit;
* `vec_t` (a floating-point scalar in the source) is modelled as `Int`: the
  claims under study only use its linear order and its zero test;
* byte buffers (`uint8_t *` + size) are `List Nat`, a null pointer is `none`;
* C++ strings are byte lists (`List Nat`) where they are serialised, and
  `String` where only used as labels.
-/

/-- Embedding of `vec_t`: scalar type of the source, modelled as `Int` (only its linear
order and zero test are used by the embedded operations). -/
abbrev vec_t := Int

/-- Modelled from the spec: `qvec3b` (a 3-component byte vector from the
absent `qvec.hh`) as a lexicographically ordered triple of naturals. -/
abbrev qvec3b := Lex (Nat × Lex (Nat × Nat))

/-- The all-zero `qvec3b`. -/
def qvec3b_zero : qvec3b := toLex (0, toLex (0, 0))

/-- Modelled from the spec: `qv::emptyExact` — every component is exactly 0. -/
def qv_emptyExact (v : qvec3b) : Bool :=
  (ofLex v).1 == 0 && (ofLex (ofLex v).2).1 == 0 && (ofLex (ofLex v).2).2 == 0

/-- Embedding of `surfflags_t` of `bspfile.hh` (lines 161-225): native flags plus
extended per-face lighting attributes. -/
structure surfflags_t where
  native : Int
  is_skip : Bool
  is_hint : Bool
  no_dirt : Bool
  no_shadow : Bool
  no_bounce : Bool
  no_minlight : Bool
  no_expand : Bool
  light_ignore : Bool
  phong_angle : vec_t
  phong_angle_concave : vec_t
  minlight : vec_t
  minlight_color : qvec3b
  light_alpha : vec_t
deriving DecidableEq

/-- A value-initialised `surfflags_t{}` (the struct has no member
initialisers, so value-initialisation zeroes every field). -/
def surfflags_default : surfflags_t :=
  { native := 0, is_skip := false, is_hint := false, no_dirt := false,
    no_shadow := false, no_bounce := false, no_minlight := false,
    no_expand := false, light_ignore := false, phong_angle := 0,
    phong_angle_concave := 0, minlight := 0, minlight_color := qvec3b_zero,
    light_alpha := 0 }

/-- Embedding of `surfflags_t::needs_write` (bspfile.hh lines 205-209), with C++
truthiness of the scalar fields made explicit as a zero test. -/
def surfflags_t.needs_write (s : surfflags_t) : Bool :=
  s.no_dirt || s.no_shadow || s.no_bounce || s.no_minlight || s.no_expand ||
    s.light_ignore || (s.phong_angle != 0) || (s.phong_angle_concave != 0) ||
    (s.minlight != 0) || !(qv_emptyExact s.minlight_color) ||
    (s.light_alpha != 0)

/-- One step of `std::tuple::operator<`: `x < y || (!(y < x) && rest)`. -/
def tupLt {α : Type} [LinearOrder α] (x y : α) (k : Bool) : Bool :=
  decide (x < y) || (!(decide (y < x)) && k)

/-- Embedding of `surfflags_t::operator<` (bspfile.hh lines 212-220): lexicographic
comparison of `as_tuple() = (native, is_skip, is_hint, no_dirt, no_shadow,
no_bounce, no_minlight, no_expand, light_ignore, phong_angle,
phong_angle_concave, minlight, minlight_color, light_alpha)`, expanded to
the recursion `std::tuple::operator<` performs (empty-tuple base `false`). -/
def surfflags_t.lt (a b : surfflags_t) : Bool :=
  tupLt a.native b.native <|
  tupLt a.is_skip b.is_skip <|
  tupLt a.is_hint b.is_hint <|
  tupLt a.no_dirt b.no_dirt <|
  tupLt a.no_shadow b.no_shadow <|
  tupLt a.no_bounce b.no_bounce <|
  tupLt a.no_minlight b.no_minlight <|
  tupLt a.no_expand b.no_expand <|
  tupLt a.light_ignore b.light_ignore <|
  tupLt a.phong_angle b.phong_angle <|
  tupLt a.phong_angle_concave b.phong_angle_concave <|
  tupLt a.minlight b.minlight <|
  tupLt a.minlight_color b.minlight_color <|
  tupLt a.light_alpha b.light_alpha false

/-- One level of a spelled-out lexicographic order: either the head is
strictly smaller, or the heads are equal and the tail order holds. -/
def lexCons (ltP eqP K : Prop) : Prop := ltP ∨ (eqP ∧ K)

/-- The lexicographic order on the full field tuple, written out as the
specification describes it (first strictly smaller field decides). -/
def surfLexLt (a b : surfflags_t) : Prop :=
  lexCons (a.native < b.native) (a.native = b.native) <|
  lexCons (a.is_skip < b.is_skip) (a.is_skip = b.is_skip) <|
  lexCons (a.is_hint < b.is_hint) (a.is_hint = b.is_hint) <|
  lexCons (a.no_dirt < b.no_dirt) (a.no_dirt = b.no_dirt) <|
  lexCons (a.no_shadow < b.no_shadow) (a.no_shadow = b.no_shadow) <|
  lexCons (a.no_bounce < b.no_bounce) (a.no_bounce = b.no_bounce) <|
  lexCons (a.no_minlight < b.no_minlight) (a.no_minlight = b.no_minlight) <|
  lexCons (a.no_expand < b.no_expand) (a.no_expand = b.no_expand) <|
  lexCons (a.light_ignore < b.light_ignore) (a.light_ignore = b.light_ignore) <|
  lexCons (a.phong_angle < b.phong_angle) (a.phong_angle = b.phong_angle) <|
  lexCons (a.phong_angle_concave < b.phong_angle_concave) (a.phong_angle_concave = b.phong_angle_concave) <|
  lexCons (a.minlight < b.minlight) (a.minlight = b.minlight) <|
  lexCons (a.minlight_color < b.minlight_color) (a.minlight_color = b.minlight_color) <|
  lexCons (a.light_alpha < b.light_alpha) (a.light_alpha = b.light_alpha) False


/-- Embedding of `gameid_t` (bspfile.hh lines 228-237): native game target ID. -/
inductive gameid_t where
  | GAME_UNKNOWN
  | GAME_QUAKE
  | GAME_HEXEN_II
  | GAME_HALF_LIFE
  | GAME_QUAKE_II
deriving DecidableEq

/-- The `std::any` payload attached to content flags. Modelled from the spec:
the opaque per-game extension data is a closed sum keyed by game identifier
(design note of the spec); an absent payload is `none`. -/
abbrev game_data_t := Option (gameid_t × Int)

/-- Embedding of `contentflags_t` (bspfile.hh lines 88-159): native code, game payload,
optional overrides and the vis-blocker flag, with the member initialisers
of the source as defaults. -/
structure contentflags_t where
  native : Int := 0
  game_data : game_data_t := none
  mirror_inside : Option Bool := none
  clips_same_type : Option Bool := none
  illusionary_visblocker : Bool := false
deriving DecidableEq

/-- Embedding of `gamedef_t` (bspfile.hh lines 241-305): the abstract per-game
capability set, embedded as a record of classification functions. Only the
capabilities the claims under study exercise are carried; the surface,
environment and statistics members of the source interface are omitted
because no embedded operation consults them. -/
structure gamedef_t where
  id : gameid_t
  contents_are_solid : contentflags_t → Bool
  contents_are_detail_solid : contentflags_t → Bool
  contents_are_detail_fence : contentflags_t → Bool
  contents_are_detail_illusionary : contentflags_t → Bool
  contents_are_mirrored : contentflags_t → Bool
  contents_are_empty : contentflags_t → Bool
  contents_clip_same_type : contentflags_t → contentflags_t → Bool
  contents_priority : contentflags_t → Int

/-- Modelled from the spec: `contentflags_t::is_solid` (body in the absent
`bspfile.cc`) delegates the question to the game contract. -/
def contentflags_t.is_solid (c : contentflags_t) (game : gamedef_t) : Bool :=
  game.contents_are_solid c

/-- Modelled from the spec: `contentflags_t::is_detail_solid` delegates to
the game contract. -/
def contentflags_t.is_detail_solid (c : contentflags_t) (game : gamedef_t) : Bool :=
  game.contents_are_detail_solid c

/-- Embedding of `contentflags_t::is_any_solid` (bspfile.hh lines 125-128):
`is_solid(game) || is_detail_solid(game)`. -/
def contentflags_t.is_any_solid (c : contentflags_t) (game : gamedef_t) : Bool :=
  c.is_solid game || c.is_detail_solid game

/-- Modelled from the spec: the two-argument
`contentflags_t::will_clip_same_type` (body in the absent `bspfile.cc`)
funnels the decision through the contract's `contents_clip_same_type`. -/
def contentflags_t.will_clip_same_type (c : contentflags_t) (game : gamedef_t)
    (other : contentflags_t) : Bool :=
  game.contents_clip_same_type c other

/-- The one-argument `contentflags_t::will_clip_same_type` overload
(bspfile.hh line 118): `will_clip_same_type(game, *this)`. -/
def contentflags_t.will_clip_same_type_self (c : contentflags_t)
    (game : gamedef_t) : Bool :=
  c.will_clip_same_type game c

/-- Embedding of `contentflags_t::set_mirrored` (bspfile.hh line 116): store the
optional override and return the mutated value (`*this`). -/
def contentflags_t.set_mirrored (c : contentflags_t)
    (mirror_inside_value : Option Bool) : contentflags_t :=
  { c with mirror_inside := mirror_inside_value }

/-- Embedding of `contentflags_t::set_clips_same_type` (bspfile.hh line 120): store the
optional override and return the mutated value (`*this`). -/
def contentflags_t.set_clips_same_type (c : contentflags_t)
    (clips_same_type_value : Option Bool) : contentflags_t :=
  { c with clips_same_type := clips_same_type_value }

/-- An example game contract instance (used to evaluate theorems with
hypotheses at concrete inputs; it is a test fixture, not a source game). -/
def gamedef_example : gamedef_t :=
  { id := gameid_t.GAME_QUAKE
    contents_are_solid := fun c => c.native == -2
    contents_are_detail_solid := fun c => c.game_data == some (gameid_t.GAME_QUAKE, 1)
    contents_are_detail_fence := fun c => c.game_data == some (gameid_t.GAME_QUAKE, 2)
    contents_are_detail_illusionary := fun c => c.game_data == some (gameid_t.GAME_QUAKE, 3)
    contents_are_mirrored := fun c => c.mirror_inside == some true
    contents_are_empty := fun c => c.native == -1
    contents_clip_same_type := fun c _ => c.clips_same_type != some false
    contents_priority := fun c => if c.native == -2 then 7 else 0 }

/-- Embedding of `lumpspec_t` (bspfile.hh lines 310-314): name and per-record byte size
of one lump slot. -/
structure lumpspec_t where
  name : String
  size : Nat
deriving DecidableEq

/-- Embedding of `bspversion_t` (bspfile.hh lines 317-333). The identifier is carried as
its unsigned 32-bit value; the `game` pointer is modelled by the game id;
the `extended_limits` pointer is modelled by the successor format's
`(ident, version)` key (`none` for a null pointer). -/
structure bspversion_t where
  ident : Nat
  version : Option Nat
  short_name : String
  name : Option String
  lumps : List lumpspec_t
  game : gameid_t
  extended_limits : Option (Nat × Option Nat)
deriving DecidableEq

/-- The four identifier letters of a format magic, low byte first
(formatter lines 350-351: `v.ident & 0xFF`, `(v.ident >> 8) & 0xFF`, ...). -/
def identString (ident : Nat) : String :=
  String.mk [Char.ofNat (ident % 256), Char.ofNat (ident / 256 % 256),
    Char.ofNat (ident / 65536 % 256), Char.ofNat (ident / 16777216 % 256)]

/-- Embedding of the formatter for `bspversion_t` (bspfile.hh lines 341-356): the
display name plus a space when non-null, then `ident:version` for
version-discriminated formats and the short name otherwise. -/
def bspversion_format (v : bspversion_t) : String :=
  (match v.name with
   | some n => n ++ " "
   | none => "") ++
  (match v.version with
   | some ver => identString v.ident ++ ":" ++ toString ver
   | none => v.short_name)

/-- A concrete Quake-II-style descriptor used to exercise the formatter
(`IBSP`, version 38). -/
def bspver_q2_example : bspversion_t :=
  { ident := 73 + 66 * 256 + 83 * 65536 + 80 * 16777216
    version := some 38
    short_name := "q2bsp"
    name := some "Quake II BSP"
    lumps := []
    game := gameid_t.GAME_QUAKE_II
    extended_limits := none }

/-- Modelled from the spec: the per-format structural document shapes
(headers `bspfile_generic.hh`, `bspfile_q1.hh`, `bspfile_q2.hh` are absent
from the sources). Each shape stores, per lump slot of its format, the raw
lump bytes. -/
structure mbsp_t where
  lumps : List (List Nat)
deriving DecidableEq

/-- Modelled from the spec: Quake BSP (16-bit index tier) document shape. -/
structure bsp29_t where
  lumps : List (List Nat)
deriving DecidableEq

/-- Modelled from the spec: BSP2 RMQ variant document shape. -/
structure bsp2rmq_t where
  lumps : List (List Nat)
deriving DecidableEq

/-- Modelled from the spec: BSP2 (32-bit index tier) document shape. -/
structure bsp2_t where
  lumps : List (List Nat)
deriving DecidableEq

/-- Modelled from the spec: Quake II BSP document shape. -/
structure q2bsp_t where
  lumps : List (List Nat)
deriving DecidableEq

/-- Modelled from the spec: Qbism extended-limits Quake II document shape. -/
structure q2bsp_qbism_t where
  lumps : List (List Nat)
deriving DecidableEq

/-- The tagged union `std::variant<std::monostate, mbsp_t, bsp29_t,
bsp2rmq_t, bsp2_t, q2bsp_t, q2bsp_qbism_t>` of `bspdata_t::bsp`
(bspfile.hh line 415). -/
inductive bsp_variant_t where
  | monostate
  | mbsp (d : mbsp_t)
  | bsp29 (d : bsp29_t)
  | bsp2rmq (d : bsp2rmq_t)
  | bsp2 (d : bsp2_t)
  | q2bsp (d : q2bsp_t)
  | q2bsp_qbism (d : q2bsp_qbism_t)
deriving DecidableEq

/-- The lump contents held by a populated variant (`none` for monostate). -/
def bsp_variant_t.lumpContents : bsp_variant_t → Option (List (List Nat))
  | .monostate => none
  | .mbsp d => some d.lumps
  | .bsp29 d => some d.lumps
  | .bsp2rmq d => some d.lumps
  | .bsp2 d => some d.lumps
  | .q2bsp d => some d.lumps
  | .q2bsp_qbism d => some d.lumps

/-- Modelled from the spec: the structural variant a load populates for a
matched format descriptor (the format-to-shape association lives in the
absent `bspfile.cc`; it is keyed here on the descriptor's short name, the
generic shape being the fallback the spec's convert engine pivots on). -/
def variantFor (v : bspversion_t) (lumps : List (List Nat)) : bsp_variant_t :=
  if v.short_name = "bsp29" then .bsp29 ⟨lumps⟩
  else if v.short_name = "bsp2rmq" then .bsp2rmq ⟨lumps⟩
  else if v.short_name = "bsp2" then .bsp2 ⟨lumps⟩
  else if v.short_name = "q2bsp" then .q2bsp ⟨lumps⟩
  else if v.short_name = "qbism" then .q2bsp_qbism ⟨lumps⟩
  else .mbsp ⟨lumps⟩

/-- Embedding of `bspxentry_t` (from the absent `bspxfile.hh`): an owned raw byte buffer
(`none` models a null `uint8_t *`) with its explicit length. -/
structure bspxentry_t where
  lumpdata : Option (List Nat)
  lumpsize : Nat
deriving DecidableEq

/-- The `std::unordered_map::insert_or_assign` operation on the association-list model of
the extensible lump table: replace the entry under an existing key, append
otherwise (names stay unique). -/
def insertOrAssign (entries : List (List Nat × bspxentry_t)) (k : List Nat)
    (e : bspxentry_t) : List (List Nat × bspxentry_t) :=
  match entries with
  | [] => [(k, e)]
  | (k', e') :: rest =>
    if k' = k then (k, e) :: rest else (k', e') :: insertOrAssign rest k e

/-- Embedding of `bspdata_t::bspx::transfer` (bspfile.hh lines 424-428):
`entries.insert_or_assign(xname, bspxentry_t{xdata, xsize}); xdata = nullptr;`
— returns the new table and the caller's cleared source pointer. -/
def bspx_transfer (entries : List (List Nat × bspxentry_t)) (xname : List Nat)
    (xdata : Option (List Nat)) (xsize : Nat) :
    List (List Nat × bspxentry_t) × Option (List Nat) :=
  (insertOrAssign entries xname ⟨xdata, xsize⟩, none)

/-- Embedding of `bspdata_t::bspx::copy` (bspfile.hh lines 431-436): duplicate the bytes
and transfer the duplicate. -/
def bspx_copy (entries : List (List Nat × bspxentry_t)) (xname : List Nat)
    (xdata : List Nat) (xsize : Nat) : List (List Nat × bspxentry_t) :=
  (bspx_transfer entries xname (some xdata) xsize).1

/-- Embedding of `bspdata_t` (bspfile.hh lines 410-438): matched and load-time format
pointers (null until a load), the tagged structural variant (monostate
until populated) and the extensible lump table, flattened from the nested
`bspx` member. -/
structure bspdata_t where
  version : Option bspversion_t := none
  loadversion : Option bspversion_t := none
  bsp : bsp_variant_t := bsp_variant_t.monostate
  bspx_entries : List (List Nat × bspxentry_t) := []
deriving DecidableEq

/-- A freshly constructed `bspdata_t{}`. -/
def bspdata_default : bspdata_t := {}

/-- The `(ident, version)` key identifying a format descriptor in the
registry. -/
def formatKey (v : bspversion_t) : Nat × Option Nat := (v.ident, v.version)

/-- Modelled from the spec: a conversion target is reachable when it is the
current format itself (no-op) or the current format's `extended_limits`
successor (in-family upgrade); the documented compatible cross-family pair
set is empty (spec design note: cross-family conversion is unsupported
unless a concrete pair is documented). -/
def conversionReachable (src dst : bspversion_t) : Bool :=
  formatKey src == formatKey dst || src.extended_limits == some (formatKey dst)

/-- Modelled from the spec: `ConvertBSPFormat` (declared bspfile.hh line
450, body absent) re-expresses the document in the target format when the
target is reachable and reports an unreachable target by returning `false`
with the document untouched — a boolean result, never a thrown fault. -/
def ConvertBSPFormat (d : bspdata_t) (to_version : bspversion_t) :
    Bool × bspdata_t :=
  match d.version with
  | none => (false, d)
  | some cur =>
    if conversionReachable cur to_version then
      (true, { d with version := some to_version })
    else
      (false, d)

/-- A 32-bit little-endian encoding of a number (the container stores all
header and directory fields as 32-bit integers). -/
def toLE4 (n : Nat) : List Nat :=
  [n % 256, n / 256 % 256, n / 65536 % 256, n / 16777216 % 256]

/-- Decode four little-endian bytes. -/
def fromLE4 (b0 b1 b2 b3 : Nat) : Nat :=
  b0 + 256 * b1 + 65536 * b2 + 16777216 * b3

/-- The byte range `[ofs, ofs+len)` of a file. -/
def sliceFile (file : List Nat) (ofs len : Nat) : List Nat :=
  (file.drop ofs).take len

/-- Read a 32-bit little-endian field at a byte position. -/
def readU32 (file : List Nat) (pos : Nat) : Option Nat :=
  match sliceFile file pos 4 with
  | [b0, b1, b2, b3] => some (fromLE4 b0 b1 b2 b3)
  | _ => none

/-- Padding needed after `n` bytes for the constant 4-byte alignment rule
the write engine applies between lumps. -/
def padLen (n : Nat) : Nat := (4 - n % 4) % 4

/-- Zero padding after an `n`-byte lump. -/
def padBytes (n : Nat) : List Nat := List.replicate (padLen n) 0

/-- Modelled from the spec: the fixed container header — magic identifier,
then the version integer for version-discriminated formats. -/
def headerBytes (v : bspversion_t) : List Nat :=
  toLE4 v.ident ++ (match v.version with
                    | some ver => toLE4 ver
                    | none => [])

/-- Modelled from the spec: sequential lump placement — each lump starts at
the running offset, which then advances by the lump length plus alignment
padding. Produces the `(fileOffset, length)` directory. -/
def lumpOffsets (start : Nat) : List Nat → List (Nat × Nat)
  | [] => []
  | len :: rest => (start, len) :: lumpOffsets (start + len + padLen len) rest

/-- The serialized lump directory: per lump an offset and a length, each a
32-bit little-endian field. -/
def dirBytes (dir : List (Nat × Nat)) : List Nat :=
  (dir.map (fun p => toLE4 p.1 ++ toLE4 p.2)).flatten

/-- The serialized lump data region: each lump's bytes followed by its
alignment padding. -/
def lumpDataBytes (lumps : List (List Nat)) : List Nat :=
  (lumps.map (fun l => l ++ padBytes l.length)).flatten

/-- Total size of the lump data region for the given lump lengths. -/
def paddedTotal (lens : List Nat) : Nat :=
  (lens.map (fun l => l + padLen l)).sum

/-- Modelled from the spec: sequential blob placement for the extensible
lump table — `(name, offset, length)` per entry, blobs laid out one after
another from `blobStart`. -/
def bspxDir (blobStart : Nat) : List (List Nat × bspxentry_t) → List (List Nat × Nat × Nat)
  | [] => []
  | (n, e) :: rest => (n, blobStart, e.lumpsize) :: bspxDir (blobStart + e.lumpsize) rest

/-- Serialized directory of the extensible lump table: the 24-byte name and
two 32-bit fields per entry. -/
def bspxDirBytes (dir : List (List Nat × Nat × Nat)) : List Nat :=
  (dir.map (fun t => t.1 ++ toLE4 t.2.1 ++ toLE4 t.2.2)).flatten

/-- The concatenated blob bytes of the extensible lump table. -/
def bspxBlobBytes (entries : List (List Nat × bspxentry_t)) : List Nat :=
  (entries.map (fun p => p.2.lumpdata.getD [])).flatten

/-- Modelled from the spec: the trailing extensible-lump-table section — a
count-prefixed list of `(name, offset, length)` triples followed by the
blobs; appended only when the table is non-empty. -/
def bspxSection (tailStart : Nat) (entries : List (List Nat × bspxentry_t)) : List Nat :=
  if entries.isEmpty then []
  else
    let blobStart := tailStart + 4 + 32 * entries.length
    toLE4 entries.length ++ bspxDirBytes (bspxDir blobStart entries) ++
      bspxBlobBytes entries

/-- Modelled from the spec: `WriteBSPFile` (declared bspfile.hh line 445,
body absent) — header, lump directory with sequentially computed aligned
offsets, lump data in the format's declared order, then the extensible
lump table section when non-empty. A document whose variant does not match
its stored format is rejected (`VariantFormatMismatch` is a programming
fault; modelled as `none`). -/
def writeBytesFor (v : bspversion_t) (lumps : List (List Nat))
    (entries : List (List Nat × bspxentry_t)) : List Nat :=
  (headerBytes v ++
    dirBytes (lumpOffsets ((headerBytes v).length + 8 * v.lumps.length)
      (lumps.map List.length)) ++
    lumpDataBytes lumps) ++
  bspxSection (headerBytes v ++
    dirBytes (lumpOffsets ((headerBytes v).length + 8 * v.lumps.length)
      (lumps.map List.length)) ++
    lumpDataBytes lumps).length entries

/-- Embedding of `WriteBSPFile`: serialize a document whose structural variant matches
its stored format; see `writeBytesFor` and the section comment above. -/
def WriteBSPFile (d : bspdata_t) : Option (List Nat) :=
  match d.version, d.bsp.lumpContents with
  | some v, some lumps =>
    if lumps.length = v.lumps.length then
      some (writeBytesFor v lumps d.bspx_entries)
    else none
  | _, _ => none

/-- The load/write error taxonomy of the spec that is reachable from the
loader (`FormatAmbiguous` is prevented by registry construction and
`VariantFormatMismatch` is a write-side programming fault). -/
inductive bsp_error where
  | FormatUnrecognized
  | TruncatedFile
  | LumpSizeMismatch
deriving DecidableEq

/-- Modelled from the spec: format detection — match the identifier against
the registry's version-less formats first, otherwise read the version field
and match the `(identifier, version)` pair. Returns the descriptor and the
header length. -/
def lookupBspVersion (reg : List bspversion_t) (file : List Nat) :
    Option (bspversion_t × Nat) :=
  match readU32 file 0 with
  | none => none
  | some i =>
    match reg.find? (fun f => f.ident == i && f.version == none) with
    | some f => some (f, 4)
    | none =>
      match readU32 file 4 with
      | none => none
      | some ver =>
        match reg.find? (fun f => f.ident == i && f.version == some ver) with
        | some f => some (f, 8)
        | none => none

/-- Read `n` lump directory entries at a position. -/
def readDir (file : List Nat) (pos : Nat) : Nat → Option (List (Nat × Nat))
  | 0 => some []
  | n + 1 =>
    match readU32 file pos, readU32 file (pos + 4), readDir file (pos + 8) n with
    | some o, some l, some rest => some ((o, l) :: rest)
    | _, _, _ => none

/-- Read one lump per its directory entry: `TruncatedFile` when the range
exceeds the file, `LumpSizeMismatch` when the length is not a multiple of
the lump's record size. -/
def readLump (file : List Nat) (spec : lumpspec_t) (ofs len : Nat) :
    Except bsp_error (List Nat) :=
  if ofs + len ≤ file.length then
    if len % spec.size = 0 then Except.ok (sliceFile file ofs len)
    else Except.error bsp_error.LumpSizeMismatch
  else Except.error bsp_error.TruncatedFile

/-- Read every lump of the format, pairing lump specs with directory
entries. -/
def readLumps (file : List Nat) :
    List lumpspec_t → List (Nat × Nat) → Except bsp_error (List (List Nat))
  | [], [] => Except.ok []
  | spec :: specs, e :: es =>
    match readLump file spec e.1 e.2, readLumps file specs es with
    | Except.ok l, Except.ok rest => Except.ok (l :: rest)
    | Except.error err, _ => Except.error err
    | _, Except.error err => Except.error err
  | _, _ => Except.error bsp_error.TruncatedFile

/-- Read `n` extensible-lump-table entries at a directory position: the
24-byte name, then the blob's offset and length, then the blob bytes. -/
def readBspxEntries (file : List Nat) (pos : Nat) :
    Nat → Except bsp_error (List (List Nat × bspxentry_t))
  | 0 => Except.ok []
  | n + 1 =>
    if pos + 32 ≤ file.length then
      match readU32 file (pos + 24), readU32 file (pos + 28) with
      | some o, some l =>
        if o + l ≤ file.length then
          match readBspxEntries file (pos + 32) n with
          | Except.ok rest =>
            Except.ok ((sliceFile file pos 24,
              { lumpdata := some (sliceFile file o l), lumpsize := l }) :: rest)
          | Except.error err => Except.error err
        else Except.error bsp_error.TruncatedFile
      | _, _ => Except.error bsp_error.TruncatedFile
    else Except.error bsp_error.TruncatedFile

/-- Modelled from the spec: parse the trailing extensible-lump-table
section when present (the lump directory determines where the lump data
region ends; any bytes beyond it form the count-prefixed section). -/
def readBspx (file : List Nat) (tailStart : Nat) :
    Except bsp_error (List (List Nat × bspxentry_t)) :=
  if file.length ≤ tailStart then Except.ok []
  else
    match readU32 file tailStart with
    | none => Except.error bsp_error.TruncatedFile
    | some count => readBspxEntries file (tailStart + 4) count

/-- Modelled from the spec: `LoadBSPFile` (declared bspfile.hh line 444,
body absent) — resolve the format from the header via the registry, read
the lump directory, parse each lump per its descriptor, then parse the
trailing extensible-lump-table section. The registry is a parameter so the
registry-uniqueness invariant can be stated (the registry's contents live
in the absent per-format headers). -/
def LoadBSPFile (reg : List bspversion_t) (file : List Nat) :
    Except bsp_error bspdata_t :=
  match lookupBspVersion reg file with
  | none => Except.error bsp_error.FormatUnrecognized
  | some (v, headerLen) =>
    let dataStart := headerLen + 8 * v.lumps.length
    match readDir file headerLen v.lumps.length with
    | none => Except.error bsp_error.TruncatedFile
    | some dir =>
      match readLumps file v.lumps dir with
      | Except.error err => Except.error err
      | Except.ok lumps =>
        let tailStart := dataStart + paddedTotal (dir.map Prod.snd)
        match readBspx file tailStart with
        | Except.error err => Except.error err
        | Except.ok bx =>
          Except.ok ⟨some v, some v, variantFor v lumps, bx⟩

/-- Example document in the Quake II format (fixture for evaluating
hypothesis-guarded theorems at concrete inputs). -/
def bspdata_q2_example : bspdata_t :=
  { version := some bspver_q2_example, loadversion := some bspver_q2_example,
    bsp := bsp_variant_t.q2bsp ⟨[]⟩, bspx_entries := [] }

/-- Example descriptor unreachable from `bspver_q2_example` (different key,
not its extended-limits successor). -/
def bspver_unrelated_example : bspversion_t :=
  { ident := 29, version := none, short_name := "bsp29", name := some "Quake BSP",
    lumps := [], game := gameid_t.GAME_QUAKE, extended_limits := none }

/-- A well-formed extensible-lump-table entry: a 24-byte name and a
non-null buffer whose length is the stored size. -/
def bspxEntryValid (p : List Nat × bspxentry_t) : Prop :=
  p.1.length = 24 ∧ ∃ d, p.2.lumpdata = some d ∧ d.length = p.2.lumpsize

/-- The registry-uniqueness invariant of the spec, phrased for one
descriptor: detection on this descriptor's key finds exactly it (and, for
a version-discriminated descriptor, no version-less descriptor shadows its
identifier). -/
def registryResolves (reg : List bspversion_t) (v : bspversion_t) : Prop :=
  match v.version with
  | none => reg.find? (fun f => f.ident == v.ident && f.version == none) = some v
  | some ver =>
    reg.find? (fun f => f.ident == v.ident && f.version == none) = none ∧
    reg.find? (fun f => f.ident == v.ident && f.version == some ver) = some v

/-- Witness format descriptor: a version-less two-lump format. -/
def bspver_wit : bspversion_t :=
  { ident := 100, version := none, short_name := "bsp29", name := some "Quake BSP",
    lumps := [⟨"entities", 1⟩, ⟨"planes", 4⟩], game := gameid_t.GAME_QUAKE,
    extended_limits := none }

/-- Witness document matching `bspver_wit`, with one extensible-lump
entry. -/
def bspdata_wit : bspdata_t :=
  { version := some bspver_wit, loadversion := some bspver_wit,
    bsp := variantFor bspver_wit [[65, 66], [1, 2, 3, 4]],
    bspx_entries := [(List.replicate 24 65, ⟨some [9], 1⟩)] }

/-- Exactly one of three propositions holds. -/
def ExactlyOne (P Q R : Prop) : Prop :=
  (P ∨ Q ∨ R) ∧ ¬(P ∧ Q) ∧ ¬(P ∧ R) ∧ ¬(Q ∧ R)

lemma tupLt_step {α : Type} [LinearOrder α] (x y : α) (kab kba : Bool) (E : Prop)
    (h : ExactlyOne (kab = true) (kba = true) E) :
    ExactlyOne (tupLt x y kab = true) (tupLt y x kba = true) (x = y ∧ E) := by
  rcases lt_trichotomy x y with hxy | hxy | hxy
  · refine ⟨Or.inl ?_, ?_, ?_, ?_⟩
    · simp [tupLt, hxy]
    · simp [tupLt, hxy, not_lt_of_gt hxy, le_of_lt hxy]
    · rintro ⟨-, rfl, -⟩
      exact lt_irrefl x hxy
    · rintro ⟨-, rfl, -⟩
      exact absurd hxy (lt_irrefl x)
  · subst hxy
    obtain ⟨h1, h2, h3, h4⟩ := h
    refine ⟨?_, ?_, ?_, ?_⟩
    · rcases h1 with h | h | h
      · exact Or.inl (by simp [tupLt, lt_irrefl, h])
      · exact Or.inr (Or.inl (by simp [tupLt, lt_irrefl, h]))
      · exact Or.inr (Or.inr ⟨rfl, h⟩)
    · rintro ⟨ha, hb⟩
      simp [tupLt, lt_irrefl] at ha hb
      exact h2 ⟨ha, hb⟩
    · rintro ⟨ha, -, hE⟩
      simp [tupLt, lt_irrefl] at ha
      exact h3 ⟨ha, hE⟩
    · rintro ⟨hb, -, hE⟩
      simp [tupLt, lt_irrefl] at hb
      exact h4 ⟨hb, hE⟩
  · refine ⟨Or.inr (Or.inl ?_), ?_, ?_, ?_⟩
    · simp [tupLt, hxy]
    · simp [tupLt, hxy, not_lt_of_gt hxy, le_of_lt hxy]
    · rintro ⟨hab, -⟩
      simp [tupLt, hxy, not_lt_of_gt hxy, le_of_lt hxy] at hab
    · rintro ⟨-, rfl, -⟩
      exact lt_irrefl x hxy

lemma tupLt_iff {α : Type} [LinearOrder α] (x y : α) (k : Bool) (K : Prop)
    (h : k = true ↔ K) : tupLt x y k = true ↔ (x < y ∨ (x = y ∧ K)) := by
  rcases lt_trichotomy x y with hxy | hxy | hxy
  · simp [tupLt, hxy, not_lt_of_gt hxy]
  · subst hxy
    simp [tupLt, lt_irrefl, h]
  · simp [tupLt, hxy, not_lt_of_gt hxy, le_of_lt hxy, ne_of_gt hxy]

lemma exactlyOne_congr_right {P Q R R' : Prop} (h : ExactlyOne P Q R)
    (hr : R ↔ R') : ExactlyOne P Q R' := by
  obtain ⟨h1, h2, h3, h4⟩ := h
  exact ⟨by tauto, h2, by tauto, by tauto⟩

lemma exactlyOne_base : ExactlyOne (false = true) (false = true) True := by
  refine ⟨Or.inr (Or.inr trivial), ?_, ?_, ?_⟩ <;> simp

lemma surfflags_eq_iff_fields (a b : surfflags_t) :
    a = b ↔ (a.native = b.native ∧ a.is_skip = b.is_skip ∧ a.is_hint = b.is_hint ∧
      a.no_dirt = b.no_dirt ∧ a.no_shadow = b.no_shadow ∧ a.no_bounce = b.no_bounce ∧
      a.no_minlight = b.no_minlight ∧ a.no_expand = b.no_expand ∧
      a.light_ignore = b.light_ignore ∧ a.phong_angle = b.phong_angle ∧
      a.phong_angle_concave = b.phong_angle_concave ∧ a.minlight = b.minlight ∧
      a.minlight_color = b.minlight_color ∧ a.light_alpha = b.light_alpha) := by
  constructor
  · rintro rfl
    exact ⟨rfl, rfl, rfl, rfl, rfl, rfl, rfl, rfl, rfl, rfl, rfl, rfl, rfl, rfl⟩
  · rintro ⟨h1, h2, h3, h4, h5, h6, h7, h8, h9, h10, h11, h12, h13, h14⟩
    cases a; cases b
    simp_all

lemma qv_emptyExact_iff (v : qvec3b) : qv_emptyExact v = true ↔ v = qvec3b_zero := by
  obtain ⟨x, y, z⟩ := v
  show ((x == 0 && y == 0) && z == 0) = true ↔ toLex (x, toLex (y, z)) = toLex (0, toLex (0, 0))
  rw [toLex_inj, Prod.mk.injEq, toLex_inj, Prod.mk.injEq]
  simp [and_assoc]

lemma qv_emptyExact_false_iff (v : qvec3b) :
    qv_emptyExact v = false ↔ v ≠ qvec3b_zero := by
  have h := qv_emptyExact_iff v
  cases hq : qv_emptyExact v <;> simp_all

/-- C1 (counterexample): a surface-flags value differing from the default
only in `is_skip` still has `needs_write() = false`, contradicting the
claim that changing any single field away from its default (including
`is_skip`) makes `needs_write()` true. -/
theorem C1_counterexample :
    ({ surfflags_default with is_skip := true } : surfflags_t).is_skip ≠
      surfflags_default.is_skip ∧
    surfflags_t.needs_write { surfflags_default with is_skip := true } = false := by
  decide

/-- C1 (amended): `needs_write()` is true iff at least one of the extended
lighting fields (`no_dirt`, `no_shadow`, `no_bounce`, `no_minlight`,
`no_expand`, `light_ignore`, `phong_angle`, `phong_angle_concave`,
`minlight`, `minlight_color`, `light_alpha`) differs from its default; on a
default-constructed value it is false; and `native`, `is_skip`, `is_hint`
never affect it. -/
theorem C1_needs_write_amended (s : surfflags_t) :
    (s.needs_write = true ↔
      (s.no_dirt = true ∨ s.no_shadow = true ∨ s.no_bounce = true ∨
       s.no_minlight = true ∨ s.no_expand = true ∨ s.light_ignore = true ∨
       s.phong_angle ≠ 0 ∨ s.phong_angle_concave ≠ 0 ∨ s.minlight ≠ 0 ∨
       s.minlight_color ≠ qvec3b_zero ∨ s.light_alpha ≠ 0)) ∧
    surfflags_t.needs_write surfflags_default = false ∧
    (∀ (n : Int) (sk hi : Bool),
      surfflags_t.needs_write { s with native := n, is_skip := sk, is_hint := hi } =
        s.needs_write) := by
  refine ⟨?_, by decide, fun n sk hi => rfl⟩
  simp only [surfflags_t.needs_write, Bool.or_eq_true, bne_iff_ne,
    Bool.not_eq_true', qv_emptyExact_false_iff]
  tauto

/-- C3: `surfflags_t::operator<` is a strict total order: for all `a b`
exactly one of `a < b`, `b < a`, `a = b` holds, and `a < b` is exactly the
lexicographic order of the full field tuple `(native, is_skip, is_hint,
no_dirt, no_shadow, no_bounce, no_minlight, no_expand, light_ignore,
phong_angle, phong_angle_concave, minlight, minlight_color, light_alpha)`. -/
theorem C3_surfflags_strict_total_order (a b : surfflags_t) :
    ExactlyOne (surfflags_t.lt a b = true) (surfflags_t.lt b a = true) (a = b) ∧
    (surfflags_t.lt a b = true ↔ surfLexLt a b) := by
  constructor
  · refine exactlyOne_congr_right
      (tupLt_step a.native b.native _ _ _
      (tupLt_step a.is_skip b.is_skip _ _ _
      (tupLt_step a.is_hint b.is_hint _ _ _
      (tupLt_step a.no_dirt b.no_dirt _ _ _
      (tupLt_step a.no_shadow b.no_shadow _ _ _
      (tupLt_step a.no_bounce b.no_bounce _ _ _
      (tupLt_step a.no_minlight b.no_minlight _ _ _
      (tupLt_step a.no_expand b.no_expand _ _ _
      (tupLt_step a.light_ignore b.light_ignore _ _ _
      (tupLt_step a.phong_angle b.phong_angle _ _ _
      (tupLt_step a.phong_angle_concave b.phong_angle_concave _ _ _
      (tupLt_step a.minlight b.minlight _ _ _
      (tupLt_step a.minlight_color b.minlight_color _ _ _
      (tupLt_step a.light_alpha b.light_alpha _ _ _
        exactlyOne_base)))))))))))))) ?_
    rw [surfflags_eq_iff_fields a b]
    simp
  · exact
      tupLt_iff a.native b.native _ _
      (tupLt_iff a.is_skip b.is_skip _ _
      (tupLt_iff a.is_hint b.is_hint _ _
      (tupLt_iff a.no_dirt b.no_dirt _ _
      (tupLt_iff a.no_shadow b.no_shadow _ _
      (tupLt_iff a.no_bounce b.no_bounce _ _
      (tupLt_iff a.no_minlight b.no_minlight _ _
      (tupLt_iff a.no_expand b.no_expand _ _
      (tupLt_iff a.light_ignore b.light_ignore _ _
      (tupLt_iff a.phong_angle b.phong_angle _ _
      (tupLt_iff a.phong_angle_concave b.phong_angle_concave _ _
      (tupLt_iff a.minlight b.minlight _ _
      (tupLt_iff a.minlight_color b.minlight_color _ _
      (tupLt_iff a.light_alpha b.light_alpha _ _
        (by simp))))))))))))))

/-- C7: `is_any_solid` is exactly the disjunction of the two primitives
`is_solid` and `is_detail_solid`, and it inspects the value through nothing
else: whenever the two primitives answer the same for two value/contract
pairs, `is_any_solid` answers the same. -/
theorem C7_is_any_solid (c : contentflags_t) (g : gamedef_t) :
    (contentflags_t.is_any_solid c g = (c.is_solid g || c.is_detail_solid g)) ∧
    (∀ (c' : contentflags_t) (g' : gamedef_t),
      c.is_solid g = c'.is_solid g' → c.is_detail_solid g = c'.is_detail_solid g' →
      c.is_any_solid g = c'.is_any_solid g') := by
  refine ⟨rfl, fun c' g' h1 h2 => ?_⟩
  simp [contentflags_t.is_any_solid, h1, h2]

/-- Witness for C7 at a concrete value and game contract. -/
theorem C7_is_any_solid_witness :
    contentflags_t.is_any_solid { native := -2 } gamedef_example =
      (contentflags_t.is_solid { native := -2 } gamedef_example ||
       contentflags_t.is_detail_solid { native := -2 } gamedef_example) ∧
    contentflags_t.is_any_solid { native := -2 } gamedef_example =
      contentflags_t.is_any_solid { native := -2 } gamedef_example :=
  ⟨(C7_is_any_solid { native := -2 } gamedef_example).1,
   (C7_is_any_solid { native := -2 } gamedef_example).2
     { native := -2 } gamedef_example (by decide) (by decide)⟩

/-- C8: the one-argument `will_clip_same_type` is exactly the two-argument
form applied to the value and itself, and the two-argument form delegates
the decision to the contract's `contents_clip_same_type`. -/
theorem C8_will_clip_same_type (c : contentflags_t) (g : gamedef_t) :
    (c.will_clip_same_type_self g = c.will_clip_same_type g c) ∧
    (∀ other : contentflags_t,
      c.will_clip_same_type g other = g.contents_clip_same_type c other) :=
  ⟨rfl, fun _ => rfl⟩

/-- C9: `set_mirrored` / `set_clips_same_type` set only their own optional
override field, leave every other field unchanged, and the stored override
keeps the unset state (`none`) distinguishable from an explicit `false`. -/
theorem C9_set_overrides (c : contentflags_t) (v : Option Bool) :
    ((c.set_mirrored v).mirror_inside = v ∧
     (c.set_mirrored v).native = c.native ∧
     (c.set_mirrored v).game_data = c.game_data ∧
     (c.set_mirrored v).clips_same_type = c.clips_same_type ∧
     (c.set_mirrored v).illusionary_visblocker = c.illusionary_visblocker) ∧
    ((c.set_clips_same_type v).clips_same_type = v ∧
     (c.set_clips_same_type v).native = c.native ∧
     (c.set_clips_same_type v).game_data = c.game_data ∧
     (c.set_clips_same_type v).mirror_inside = c.mirror_inside ∧
     (c.set_clips_same_type v).illusionary_visblocker = c.illusionary_visblocker) ∧
    (c.set_mirrored (some false)).mirror_inside ≠ (c.set_mirrored none).mirror_inside ∧
    (c.set_clips_same_type (some false)).clips_same_type ≠
      (c.set_clips_same_type none).clips_same_type := by
  refine ⟨⟨rfl, rfl, rfl, rfl, rfl⟩, ⟨rfl, rfl, rfl, rfl, rfl⟩, ?_, ?_⟩ <;>
    simp [contentflags_t.set_mirrored, contentflags_t.set_clips_same_type]

/-- Witness for C9 at a concrete value. -/
theorem C9_set_overrides_witness :
    (contentflags_t.set_mirrored {} (some true)).mirror_inside = some true :=
  (C9_set_overrides {} (some true)).1.1

/-- C4 (counterexample): the formatter prepends the display name and a
space whenever the descriptor's name is non-null, so a version-
discriminated descriptor does not render as exactly `IBSP:38`. -/
theorem C4_counterexample :
    bspversion_format bspver_q2_example = "Quake II BSP IBSP:38" ∧
    bspversion_format bspver_q2_example ≠ "IBSP:38" := by
  constructor
  · rfl
  · decide

/-- C4 (amended): the formatter first renders the display name followed by
one space when the name is non-null (and nothing when it is null); after
that prefix, a version-discriminated format renders as the four identifier
letters, a colon and the version number, and a format without a
sub-version renders as its short-name token; there is no other text. -/
theorem C4_format_amended (v : bspversion_t) :
    (∀ ver, v.version = some ver →
      bspversion_format v =
        (v.name.elim "" (fun n => n ++ " ")) ++
          (identString v.ident ++ ":" ++ toString ver)) ∧
    (v.version = none →
      bspversion_format v = (v.name.elim "" (fun n => n ++ " ")) ++ v.short_name) ∧
    (v.name = none → ∀ ver, v.version = some ver →
      bspversion_format v = identString v.ident ++ ":" ++ toString ver) ∧
    (v.name = none → v.version = none → bspversion_format v = v.short_name) := by
  refine ⟨fun ver hver => ?_, fun hver => ?_, fun hn ver hver => ?_, fun hn hver => ?_⟩ <;>
    cases hn' : v.name <;>
      simp_all [bspversion_format]

/-- Witness for C4 (amended) at the Quake II descriptor. -/
theorem C4_format_amended_witness :
    bspversion_format bspver_q2_example =
      (bspver_q2_example.name.elim "" (fun n => n ++ " ")) ++
        (identString bspver_q2_example.ident ++ ":" ++ toString 38) :=
  (C4_format_amended bspver_q2_example).1 38 rfl

lemma lookup_insertOrAssign_self (l : List (List Nat × bspxentry_t))
    (k : List Nat) (e : bspxentry_t) :
    List.lookup k (insertOrAssign l k e) = some e := by
  induction l with
  | nil => simp [insertOrAssign, List.lookup]
  | cons p rest ih =>
    obtain ⟨k', e'⟩ := p
    by_cases h : k' = k
    · subst h
      simp [insertOrAssign, List.lookup]
    · simp only [insertOrAssign, if_neg h, List.lookup]
      have hk : (k == k') = false := by
        simp [Ne.symm h]
      simp [hk, ih]

lemma lookup_insertOrAssign_ne (l : List (List Nat × bspxentry_t))
    (k k' : List Nat) (e : bspxentry_t) (h : k' ≠ k) :
    List.lookup k' (insertOrAssign l k e) = List.lookup k' l := by
  have hb : (k' == k) = false := by simp [h]
  induction l with
  | nil => simp [insertOrAssign, List.lookup, hb]
  | cons p rest ih =>
    obtain ⟨k'', e''⟩ := p
    by_cases hk : k'' = k
    · subst hk
      have h1 : (k' == k'') = false := by simp [h]
      simp [insertOrAssign, List.lookup, h1]
    · simp only [insertOrAssign, if_neg hk, List.lookup]
      by_cases h2 : k' = k''
      · subst h2
        simp
      · have h3 : (k' == k'') = false := by simp [h2]
        simp [h3, ih]

lemma mem_keys_insertOrAssign (l : List (List Nat × bspxentry_t))
    (k : List Nat) (e : bspxentry_t) (x : List Nat) :
    x ∈ (insertOrAssign l k e).map Prod.fst ↔ x = k ∨ x ∈ l.map Prod.fst := by
  induction l with
  | nil => simp [insertOrAssign]
  | cons p rest ih =>
    obtain ⟨k', e'⟩ := p
    by_cases h : k' = k
    · subst h
      simp [insertOrAssign]
    · simp [insertOrAssign, h, ih]
      tauto

lemma nodup_keys_insertOrAssign (l : List (List Nat × bspxentry_t))
    (k : List Nat) (e : bspxentry_t) (h : (l.map Prod.fst).Nodup) :
    ((insertOrAssign l k e).map Prod.fst).Nodup := by
  induction l with
  | nil => simp [insertOrAssign]
  | cons p rest ih =>
    obtain ⟨k', e'⟩ := p
    simp only [List.map_cons, List.nodup_cons] at h
    by_cases hk : k' = k
    · subst hk
      have he : insertOrAssign ((k', e') :: rest) k' e = (k', e) :: rest := by
        simp [insertOrAssign]
      rw [he, List.map_cons, List.nodup_cons]
      exact h
    · simp only [insertOrAssign, if_neg hk, List.map_cons, List.nodup_cons]
      refine ⟨?_, ih h.2⟩
      rw [mem_keys_insertOrAssign]
      rintro (rfl | hx)
      · exact hk rfl
      · exact h.1 hx

/-- C5: after `transfer(name, data, size)` the table maps `name` to an
entry holding exactly that buffer and size, every other name maps as
before, names stay unique, and the caller's source pointer is null. -/
theorem C5_bspx_transfer (entries : List (List Nat × bspxentry_t))
    (xname : List Nat) (xdata : Option (List Nat)) (xsize : Nat)
    (hnn : xdata ≠ none) (hu : (entries.map Prod.fst).Nodup) :
    List.lookup xname (bspx_transfer entries xname xdata xsize).1 =
      some ⟨xdata, xsize⟩ ∧
    (∀ k, k ≠ xname →
      List.lookup k (bspx_transfer entries xname xdata xsize).1 =
        List.lookup k entries) ∧
    ((bspx_transfer entries xname xdata xsize).1.map Prod.fst).Nodup ∧
    (bspx_transfer entries xname xdata xsize).2 = none :=
  ⟨lookup_insertOrAssign_self entries xname ⟨xdata, xsize⟩,
   fun k hk => lookup_insertOrAssign_ne entries xname k ⟨xdata, xsize⟩ hk,
   nodup_keys_insertOrAssign entries xname ⟨xdata, xsize⟩ hu, rfl⟩

/-- Witness for C5: transferring a fresh buffer into a one-entry table. -/
theorem C5_bspx_transfer_witness :
    List.lookup [66] (bspx_transfer [([65], ⟨some [1], 1⟩)] [66] (some [2, 3]) 2).1 =
      some ⟨some [2, 3], 2⟩ ∧
    (bspx_transfer [([65], ⟨some [1], 1⟩)] [66] (some [2, 3]) 2).2 = none := by
  have h := C5_bspx_transfer [([65], ⟨some [1], 1⟩)] [66] (some [2, 3]) 2
    (by decide) (by decide)
  exact ⟨h.1, h.2.2.2⟩

/-- C6: `ConvertBSPFormat` reports an unreachable target format by
returning `false` with the document untouched; the outcome is an ordinary
boolean result (the function is total), not a thrown fault. -/
theorem C6_convert_unreachable (d : bspdata_t) (t : bspversion_t)
    (h : ∀ cur, d.version = some cur → conversionReachable cur t = false) :
    (ConvertBSPFormat d t).1 = false ∧ (ConvertBSPFormat d t).2 = d := by
  cases hv : d.version with
  | none => simp [ConvertBSPFormat, hv]
  | some cur => simp [ConvertBSPFormat, hv, h cur hv]

/-- Witness for C6: converting a Quake II document to an unrelated format
fails with a `false` result. -/
theorem C6_convert_unreachable_witness :
    (ConvertBSPFormat bspdata_q2_example bspver_unrelated_example).1 = false :=
  (C6_convert_unreachable bspdata_q2_example bspver_unrelated_example
    (by intro cur hc; cases hc; decide)).1

/-- C10: a freshly constructed document's tagged union is in the empty
monostate alternative, and that alternative is distinct from every
populated per-format variant. -/
theorem C10_default_monostate :
    bspdata_default.bsp = bsp_variant_t.monostate ∧
    (∀ d, bsp_variant_t.monostate ≠ bsp_variant_t.mbsp d) ∧
    (∀ d, bsp_variant_t.monostate ≠ bsp_variant_t.bsp29 d) ∧
    (∀ d, bsp_variant_t.monostate ≠ bsp_variant_t.bsp2rmq d) ∧
    (∀ d, bsp_variant_t.monostate ≠ bsp_variant_t.bsp2 d) ∧
    (∀ d, bsp_variant_t.monostate ≠ bsp_variant_t.q2bsp d) ∧
    (∀ d, bsp_variant_t.monostate ≠ bsp_variant_t.q2bsp_qbism d) := by
  refine ⟨rfl, ?_, ?_, ?_, ?_, ?_, ?_⟩ <;> intro d h <;> exact bsp_variant_t.noConfusion h

/-- Witness for C10 at a concrete populated variant. -/
theorem C10_default_monostate_witness :
    bspdata_default.bsp = bsp_variant_t.monostate ∧
    bsp_variant_t.monostate ≠ bsp_variant_t.mbsp ⟨[]⟩ :=
  ⟨C10_default_monostate.1, C10_default_monostate.2.1 ⟨[]⟩⟩

lemma toLE4_length (n : Nat) : (toLE4 n).length = 4 := rfl

lemma sliceFile_append (pre mid rest : List Nat) :
    sliceFile (pre ++ (mid ++ rest)) pre.length mid.length = mid := by
  unfold sliceFile
  rw [List.drop_left, List.take_left]

lemma sliceFile_at (file pre mid rest : List Nat) (ofs len : Nat)
    (hf : file = pre ++ (mid ++ rest)) (ho : ofs = pre.length)
    (hl : len = mid.length) : sliceFile file ofs len = mid := by
  subst hf ho hl
  exact sliceFile_append pre mid rest

lemma readU32_at (file pre rest : List Nat) (n pos : Nat) (hn : n < 4294967296)
    (hf : file = pre ++ (toLE4 n ++ rest)) (hp : pos = pre.length) :
    readU32 file pos = some n := by
  subst hf hp
  have h4 : sliceFile (pre ++ (toLE4 n ++ rest)) pre.length 4 = toLE4 n := by
    have h := sliceFile_append pre (toLE4 n) rest
    rwa [toLE4_length] at h
  unfold readU32
  rw [h4]
  show some (fromLE4 (n % 256) (n / 256 % 256) (n / 65536 % 256)
    (n / 16777216 % 256)) = some n
  refine congrArg some ?_
  unfold fromLE4
  omega

lemma padBytes_length (n : Nat) : (padBytes n).length = padLen n :=
  List.length_replicate _ _

lemma lumpDataBytes_cons (l : List Nat) (ls : List (List Nat)) :
    lumpDataBytes (l :: ls) = (l ++ padBytes l.length) ++ lumpDataBytes ls := by
  simp [lumpDataBytes]

lemma paddedTotal_cons (len : Nat) (lens : List Nat) :
    paddedTotal (len :: lens) = (len + padLen len) + paddedTotal lens := by
  simp [paddedTotal]

lemma lumpDataBytes_length (ls : List (List Nat)) :
    (lumpDataBytes ls).length = paddedTotal (ls.map List.length) := by
  induction ls with
  | nil => simp [lumpDataBytes, paddedTotal]
  | cons l rest ih =>
    simp only [lumpDataBytes_cons, List.length_append, ih, List.map_cons,
      paddedTotal_cons, padBytes_length]

lemma dirBytes_cons (p : Nat × Nat) (dir : List (Nat × Nat)) :
    dirBytes (p :: dir) = (toLE4 p.1 ++ toLE4 p.2) ++ dirBytes dir := by
  simp [dirBytes]

lemma dirBytes_length (dir : List (Nat × Nat)) :
    (dirBytes dir).length = 8 * dir.length := by
  induction dir with
  | nil => simp [dirBytes]
  | cons p rest ih =>
    simp only [dirBytes_cons, List.length_append, ih, toLE4_length,
      List.length_cons]
    omega

lemma lumpOffsets_length : ∀ (lens : List Nat) (s : Nat),
    (lumpOffsets s lens).length = lens.length := by
  intro lens
  induction lens with
  | nil => intro s; simp [lumpOffsets]
  | cons len rest ih => intro s; simp [lumpOffsets, ih]

lemma lumpOffsets_snd : ∀ (lens : List Nat) (s : Nat),
    (lumpOffsets s lens).map Prod.snd = lens := by
  intro lens
  induction lens with
  | nil => intro s; simp [lumpOffsets]
  | cons len rest ih => intro s; simp [lumpOffsets, ih]

lemma lumpOffsets_bounds : ∀ (lens : List Nat) (s : Nat)
    (p : Nat × Nat), p ∈ lumpOffsets s lens →
    s ≤ p.1 ∧ p.1 + p.2 ≤ s + paddedTotal lens := by
  intro lens
  induction lens with
  | nil => intro s p hp; simp [lumpOffsets] at hp
  | cons len rest ih =>
    intro s p hp
    simp only [lumpOffsets, List.mem_cons] at hp
    rcases hp with rfl | hp
    · rw [paddedTotal_cons]
      refine ⟨Nat.le_refl s, ?_⟩
      simp only []
      omega
    · have h := ih (s + len + padLen len) p hp
      rw [paddedTotal_cons]
      omega

lemma readDir_spec : ∀ (dir : List (Nat × Nat)) (pre rest : List Nat),
    (∀ p ∈ dir, p.1 < 4294967296 ∧ p.2 < 4294967296) →
    readDir (pre ++ (dirBytes dir ++ rest)) pre.length dir.length = some dir := by
  intro dir
  induction dir with
  | nil =>
    intro pre rest hb
    simp [readDir]
  | cons p dir ih =>
    intro pre rest hb
    obtain ⟨o, l⟩ := p
    have hbo := (hb (o, l) (List.mem_cons_self _ _)).1
    have hbl := (hb (o, l) (List.mem_cons_self _ _)).2
    set file := pre ++ (dirBytes ((o, l) :: dir) ++ rest) with hfile
    have hshape : file = pre ++ (toLE4 o ++ (toLE4 l ++ (dirBytes dir ++ rest))) := by
      rw [hfile, dirBytes_cons]
      simp [List.append_assoc]
    have e1 : readU32 file pre.length = some o :=
      readU32_at file pre _ o pre.length hbo hshape rfl
    have hshape2 : file = (pre ++ toLE4 o) ++ (toLE4 l ++ (dirBytes dir ++ rest)) := by
      rw [hshape]
      simp [List.append_assoc]
    have e2 : readU32 file (pre.length + 4) = some l :=
      readU32_at file (pre ++ toLE4 o) _ l _ hbl hshape2
        (by simp [toLE4_length])
    have hshape3 : file = ((pre ++ toLE4 o) ++ toLE4 l) ++ (dirBytes dir ++ rest) := by
      rw [hshape]
      simp [List.append_assoc]
    have e3 : readDir file (pre.length + 8) dir.length = some dir := by
      have h := ih ((pre ++ toLE4 o) ++ toLE4 l) rest
        (fun q hq => hb q (List.mem_cons_of_mem _ hq))
      rw [← hshape3] at h
      have hl8 : ((pre ++ toLE4 o) ++ toLE4 l).length = pre.length + 8 := by
        simp [toLE4_length]
      rw [hl8] at h
      exact h
    show readDir file pre.length (dir.length + 1) = some ((o, l) :: dir)
    simp only [readDir, e1, e2, e3]

lemma readLumps_spec : ∀ (specs : List lumpspec_t) (lumps : List (List Nat))
    (pre rest : List Nat),
    specs.length = lumps.length →
    (∀ p ∈ specs.zip lumps, p.1.size ≠ 0 ∧ p.2.length % p.1.size = 0) →
    readLumps (pre ++ (lumpDataBytes lumps ++ rest)) specs
      (lumpOffsets pre.length (lumps.map List.length)) = Except.ok lumps := by
  intro specs
  induction specs with
  | nil =>
    intro lumps pre rest hlen hmod
    cases lumps with
    | nil => simp [readLumps, lumpOffsets, lumpDataBytes]
    | cons l ls => simp at hlen
  | cons spec specs ih =>
    intro lumps pre rest hlen hmod
    cases lumps with
    | nil => simp at hlen
    | cons l ls =>
      set file := pre ++ (lumpDataBytes (l :: ls) ++ rest) with hfile
      have hshape : file =
          pre ++ (l ++ (padBytes l.length ++ (lumpDataBytes ls ++ rest))) := by
        rw [hfile, lumpDataBytes_cons]
        simp [List.append_assoc]
      have hb : pre.length + l.length ≤ file.length := by
        rw [hshape]
        simp [List.length_append]
      have hslice : sliceFile file pre.length l.length = l :=
        sliceFile_at file pre l _ _ _ hshape rfl rfl
      have hmod1 := hmod (spec, l) (by simp)
      have hlump : readLump file spec pre.length l.length = Except.ok l := by
        unfold readLump
        rw [if_pos hb, if_pos hmod1.2, hslice]
      have hrec : readLumps file specs
          (lumpOffsets (pre.length + l.length + padLen l.length)
            (ls.map List.length)) = Except.ok ls := by
        have h := ih ls (pre ++ (l ++ padBytes l.length)) rest
          (by simpa using hlen)
          (fun q hq => hmod q (List.mem_cons_of_mem _ hq))
        have hfe : (pre ++ (l ++ padBytes l.length)) ++ (lumpDataBytes ls ++ rest) = file := by
          rw [hshape]
          simp [List.append_assoc]
        have hpl : (pre ++ (l ++ padBytes l.length)).length =
            pre.length + l.length + padLen l.length := by
          simp [padBytes_length]
          omega
        rw [hfe, hpl] at h
        exact h
      show readLumps file (spec :: specs)
        (lumpOffsets pre.length ((l :: ls).map List.length)) = Except.ok (l :: ls)
      simp only [List.map_cons, lumpOffsets]
      simp only [readLumps, hlump, hrec]

lemma bspxDirBytes_cons (t : List Nat × Nat × Nat) (dir : List (List Nat × Nat × Nat)) :
    bspxDirBytes (t :: dir) = (t.1 ++ toLE4 t.2.1 ++ toLE4 t.2.2) ++ bspxDirBytes dir := by
  simp [bspxDirBytes]

lemma bspxBlobBytes_cons (p : List Nat × bspxentry_t) (es : List (List Nat × bspxentry_t)) :
    bspxBlobBytes (p :: es) = p.2.lumpdata.getD [] ++ bspxBlobBytes es := by
  simp [bspxBlobBytes]

lemma bspx_blob_slices (file : List Nat) : ∀ (es : List (List Nat × bspxentry_t))
    (preB : List Nat),
    file = preB ++ bspxBlobBytes es →
    (∀ p ∈ es, bspxEntryValid p) →
    List.Forall₂ (fun (t : List Nat × Nat × Nat) (p : List Nat × bspxentry_t) =>
      t.2.1 + t.2.2 ≤ file.length ∧ sliceFile file t.2.1 t.2.2 = p.2.lumpdata.getD [])
      (bspxDir preB.length es) es := by
  intro es
  induction es with
  | nil =>
    intro preB hf hval
    exact List.Forall₂.nil
  | cons p es ih =>
    intro preB hf hval
    obtain ⟨nm, e⟩ := p
    obtain ⟨hname24, d, hd, hdl⟩ := hval (nm, e) (List.mem_cons_self _ _)
    simp only [Prod.fst, Prod.snd] at hname24 hd hdl
    have hshape : file = preB ++ (d ++ bspxBlobBytes es) := by
      rw [hf, bspxBlobBytes_cons]
      simp [hd]
    have hbound : preB.length + e.lumpsize ≤ file.length := by
      rw [hshape]
      simp [List.length_append]
      omega
    have hslice : sliceFile file preB.length e.lumpsize = (e.lumpdata).getD [] := by
      rw [hd]
      exact sliceFile_at file preB d _ _ _ hshape rfl hdl.symm
    have hrec := ih (preB ++ d)
      (by rw [hshape]; simp [List.append_assoc])
      (fun q hq => hval q (List.mem_cons_of_mem _ hq))
    have hql : (preB ++ d).length = preB.length + e.lumpsize := by
      simp [hdl]
    rw [hql] at hrec
    show List.Forall₂ _ ((nm, preB.length, e.lumpsize) :: bspxDir (preB.length + e.lumpsize) es)
      ((nm, e) :: es)
    exact List.Forall₂.cons ⟨hbound, hslice⟩ hrec

lemma bspxDir_names : ∀ (es : List (List Nat × bspxentry_t)) (q : Nat),
    List.Forall₂ (fun (t : List Nat × Nat × Nat) (p : List Nat × bspxentry_t) =>
      t.1 = p.1 ∧ t.2.2 = p.2.lumpsize) (bspxDir q es) es := by
  intro es
  induction es with
  | nil => intro q; exact List.Forall₂.nil
  | cons p es ih =>
    intro q
    obtain ⟨nm, e⟩ := p
    exact List.Forall₂.cons ⟨rfl, rfl⟩ (ih _)

lemma readBspxEntries_spec (file : List Nat) (hfl : file.length < 4294967296) :
    ∀ (es : List (List Nat × bspxentry_t)) (dir : List (List Nat × Nat × Nat))
      (preD rest : List Nat),
    file = preD ++ (bspxDirBytes dir ++ rest) →
    List.Forall₂ (fun (t : List Nat × Nat × Nat) (p : List Nat × bspxentry_t) =>
      t.1 = p.1 ∧ t.2.2 = p.2.lumpsize) dir es →
    List.Forall₂ (fun (t : List Nat × Nat × Nat) (p : List Nat × bspxentry_t) =>
      t.2.1 + t.2.2 ≤ file.length ∧ sliceFile file t.2.1 t.2.2 = p.2.lumpdata.getD [])
      dir es →
    (∀ p ∈ es, bspxEntryValid p) →
    readBspxEntries file preD.length es.length = Except.ok es := by
  intro es
  induction es with
  | nil =>
    intro dir preD rest hf h1 h2 hval
    cases h1
    simp [readBspxEntries]
  | cons p es ih =>
    intro dir preD rest hf h1 h2 hval
    cases dir with
    | nil => cases h1
    | cons t ts =>
      obtain ⟨⟨hnm, hsz⟩, h1t⟩ := List.forall₂_cons.mp h1
      obtain ⟨⟨hbd, hslice⟩, h2t⟩ := List.forall₂_cons.mp h2
      obtain ⟨hname24, d, hd, hdl⟩ := hval p (List.mem_cons_self _ _)
      have htn24 : t.1.length = 24 := by
        rw [hnm]
        exact hname24
      have hshape : file =
          preD ++ (t.1 ++ (toLE4 t.2.1 ++ (toLE4 t.2.2 ++ (bspxDirBytes ts ++ rest)))) := by
        rw [hf, bspxDirBytes_cons]
        simp [List.append_assoc]
      have hb32 : preD.length + 32 ≤ file.length := by
        rw [hshape]
        simp [List.length_append, htn24, toLE4_length]
        omega
      have eo : readU32 file (preD.length + 24) = some t.2.1 := by
        refine readU32_at file (preD ++ t.1)
          (toLE4 t.2.2 ++ (bspxDirBytes ts ++ rest)) t.2.1 _ (by omega) ?_ ?_
        · rw [hshape]
          simp [List.append_assoc]
        · simp [htn24]
      have el : readU32 file (preD.length + 28) = some t.2.2 := by
        refine readU32_at file ((preD ++ t.1) ++ toLE4 t.2.1)
          (bspxDirBytes ts ++ rest) t.2.2 _ (by omega) ?_ ?_
        · rw [hshape]
          simp [List.append_assoc]
        · simp [htn24, toLE4_length]
      have hnslice : sliceFile file preD.length 24 = t.1 := by
        refine sliceFile_at file preD t.1
          (toLE4 t.2.1 ++ (toLE4 t.2.2 ++ (bspxDirBytes ts ++ rest))) _ _ ?_ rfl htn24.symm
        rw [hshape]
      have hrec : readBspxEntries file (preD.length + 32) es.length = Except.ok es := by
        have h := ih ts ((preD ++ t.1) ++ (toLE4 t.2.1 ++ toLE4 t.2.2)) rest
          (by rw [hshape]; simp [List.append_assoc]) h1t h2t
          (fun q hq => hval q (List.mem_cons_of_mem _ hq))
        have hql : (((preD ++ t.1) ++ (toLE4 t.2.1 ++ toLE4 t.2.2))).length =
            preD.length + 32 := by
          simp [htn24, toLE4_length]
        rw [hql] at h
        exact h
      show readBspxEntries file preD.length (es.length + 1) = Except.ok (p :: es)
      simp only [readBspxEntries, if_pos hb32, eo, el, if_pos hbd, hrec]
      have hent : bspxentry_t.mk (some (sliceFile file t.2.1 t.2.2)) t.2.2 = p.2 := by
        have h1' : some (sliceFile file t.2.1 t.2.2) = p.2.lumpdata := by
          rw [hslice, hd]
          rfl
        cases hp2 : p.2 with
        | mk ld ls =>
          rw [hp2] at h1' hsz
          rw [h1', hsz]
      have hname : sliceFile file preD.length 24 = p.1 := by
        rw [hnslice, hnm]
      rw [hent, hname]


lemma variantFor_lumpContents (v : bspversion_t) (lumps : List (List Nat)) :
    (variantFor v lumps).lumpContents = some lumps := by
  unfold variantFor
  repeat' split
  all_goals rfl

lemma bspxDir_length : ∀ (es : List (List Nat × bspxentry_t)) (q : Nat),
    (bspxDir q es).length = es.length := by
  intro es
  induction es with
  | nil => intro q; rfl
  | cons p es ih =>
    intro q
    obtain ⟨nm, e⟩ := p
    simp [bspxDir, ih]

lemma bspxDirBytes_length_valid : ∀ (es : List (List Nat × bspxentry_t)) (q : Nat),
    (∀ p ∈ es, bspxEntryValid p) →
    (bspxDirBytes (bspxDir q es)).length = 32 * es.length := by
  intro es
  induction es with
  | nil => intro q hval; rfl
  | cons p es ih =>
    intro q hval
    obtain ⟨nm, e⟩ := p
    obtain ⟨hname24, -, -, -⟩ := hval (nm, e) (List.mem_cons_self _ _)
    simp only [Prod.fst] at hname24
    show (bspxDirBytes ((nm, q, e.lumpsize) :: bspxDir (q + e.lumpsize) es)).length =
      32 * (es.length + 1)
    rw [bspxDirBytes_cons]
    simp only [List.length_append, toLE4_length,
      ih (q + e.lumpsize) (fun r hr => hval r (List.mem_cons_of_mem _ hr))]
    simp [hname24]
    omega

lemma lookupBspVersion_spec (reg : List bspversion_t) (v : bspversion_t)
    (rest : List Nat)
    (hident : v.ident < 4294967296)
    (hver : ∀ n, v.version = some n → n < 4294967296)
    (hreg : registryResolves reg v) :
    lookupBspVersion reg (headerBytes v ++ rest) = some (v, (headerBytes v).length) := by
  cases hv : v.version with
  | none =>
    simp only [registryResolves, hv] at hreg
    have hidr : readU32 (headerBytes v ++ rest) 0 = some v.ident := by
      refine readU32_at _ [] rest v.ident 0 hident ?_ rfl
      simp [headerBytes, hv]
    simp only [lookupBspVersion, hidr, hreg]
    simp [headerBytes, hv, toLE4_length]
  | some ver =>
    simp only [registryResolves, hv] at hreg
    have hidr : readU32 (headerBytes v ++ rest) 0 = some v.ident := by
      refine readU32_at _ [] (toLE4 ver ++ rest) v.ident 0 hident ?_ rfl
      simp [headerBytes, hv]
    have hverr : readU32 (headerBytes v ++ rest) 4 = some ver := by
      refine readU32_at _ (toLE4 v.ident) rest ver 4 (hver ver hv) ?_ ?_
      · simp [headerBytes, hv]
      · simp [toLE4_length]
    simp only [lookupBspVersion, hidr, hreg.1, hverr, hreg.2]
    simp [headerBytes, hv, toLE4_length]

lemma load_writeBytesFor (reg : List bspversion_t) (v : bspversion_t)
    (lumps : List (List Nat)) (entries : List (List Nat × bspxentry_t))
    (hlen : lumps.length = v.lumps.length)
    (hrs : ∀ p ∈ v.lumps.zip lumps, p.1.size ≠ 0 ∧ p.2.length % p.1.size = 0)
    (hreg : registryResolves reg v)
    (hident : v.ident < 4294967296)
    (hver : ∀ n, v.version = some n → n < 4294967296)
    (hxval : ∀ p ∈ entries, bspxEntryValid p)
    (hfl : (writeBytesFor v lumps entries).length < 4294967296) :
    LoadBSPFile reg (writeBytesFor v lumps entries) =
      Except.ok ⟨some v, some v, variantFor v lumps, entries⟩ := by
  unfold writeBytesFor at hfl ⊢
  set header := headerBytes v with hheader
  set dir := lumpOffsets (header.length + 8 * v.lumps.length)
    (lumps.map List.length) with hdir
  set body := header ++ dirBytes dir ++ lumpDataBytes lumps with hbody
  set sec := bspxSection body.length entries with hsec
  have hdlen : dir.length = v.lumps.length := by
    rw [hdir, lumpOffsets_length, List.length_map, hlen]
  have hdirbl : (dirBytes dir).length = 8 * v.lumps.length := by
    rw [dirBytes_length, hdlen]
  have hbodylen : body.length =
      header.length + 8 * v.lumps.length + paddedTotal (lumps.map List.length) := by
    rw [hbody]
    simp only [List.length_append, hdirbl, lumpDataBytes_length]
  have hshape1 : body ++ sec =
      header ++ (dirBytes dir ++ (lumpDataBytes lumps ++ sec)) := by
    rw [hbody]
    simp [List.append_assoc]
  have h_lookup : lookupBspVersion reg (body ++ sec) = some (v, header.length) := by
    have h := lookupBspVersion_spec reg v
      (dirBytes dir ++ (lumpDataBytes lumps ++ sec)) hident hver hreg
    rw [← hheader] at h
    rw [← hshape1] at h
    exact h
  have hnum : ∀ p ∈ dir, p.1 < 4294967296 ∧ p.2 < 4294967296 := by
    intro p hp
    rw [hdir] at hp
    have hb := lumpOffsets_bounds (lumps.map List.length)
      (header.length + 8 * v.lumps.length) p hp
    have hble : body.length ≤ (body ++ sec).length := by simp
    omega
  have h_dir : readDir (body ++ sec) header.length v.lumps.length = some dir := by
    have h := readDir_spec dir header (lumpDataBytes lumps ++ sec) hnum
    rw [← hshape1] at h
    rw [hdlen] at h
    exact h
  have hshape2 : body ++ sec =
      (header ++ dirBytes dir) ++ (lumpDataBytes lumps ++ sec) := by
    rw [hbody]
    simp [List.append_assoc]
  have h_lumps : readLumps (body ++ sec) v.lumps dir = Except.ok lumps := by
    have h := readLumps_spec v.lumps lumps (header ++ dirBytes dir) sec
      hlen.symm hrs
    rw [← hshape2] at h
    have hl2 : (header ++ dirBytes dir).length =
        header.length + 8 * v.lumps.length := by
      simp [List.length_append, hdirbl]
    rw [hl2, ← hdir] at h
    exact h
  have h_snd : dir.map Prod.snd = lumps.map List.length := by
    rw [hdir, lumpOffsets_snd]
  have h_tail : header.length + 8 * v.lumps.length +
      paddedTotal (dir.map Prod.snd) = body.length := by
    rw [h_snd, hbodylen]
  have h_bspx : readBspx (body ++ sec) body.length = Except.ok entries := by
    cases hes : entries with
    | nil =>
      have hsece : sec = [] := by
        rw [hsec, hes]
        rfl
      rw [hsece]
      simp [readBspx]
    | cons e es =>
      rw [hes] at hsec hxval
      have hsece : sec = toLE4 (e :: es).length ++
          bspxDirBytes (bspxDir (body.length + 4 + 32 * (e :: es).length) (e :: es)) ++
          bspxBlobBytes (e :: es) := by
        rw [hsec]
        simp [bspxSection]
      have hdirbX : (bspxDirBytes (bspxDir (body.length + 4 + 32 * (e :: es).length)
          (e :: es))).length = 32 * (e :: es).length :=
        bspxDirBytes_length_valid (e :: es) _ hxval
      have hsecl : sec.length =
          4 + 32 * (e :: es).length + (bspxBlobBytes (e :: es)).length := by
        rw [hsece]
        simp only [List.length_append, toLE4_length, hdirbX]
      have hballn : (body ++ sec).length = body.length + sec.length := by simp
      have hcount_lt : (e :: es).length < 4294967296 := by omega
      have hgt : ¬ ((body ++ sec).length ≤ body.length) := by omega
      have hshape3 : body ++ sec = body ++ (toLE4 (e :: es).length ++
          (bspxDirBytes (bspxDir (body.length + 4 + 32 * (e :: es).length) (e :: es)) ++
           bspxBlobBytes (e :: es))) := by
        rw [hsece]
        simp [List.append_assoc]
      have h_count : readU32 (body ++ sec) body.length = some (e :: es).length :=
        readU32_at _ body _ (e :: es).length body.length hcount_lt hshape3 rfl
      have hshape4 : body ++ sec = (body ++ toLE4 (e :: es).length) ++
          (bspxDirBytes (bspxDir (body.length + 4 + 32 * (e :: es).length) (e :: es)) ++
           bspxBlobBytes (e :: es)) := by
        rw [hsece]
        simp [List.append_assoc]
      have hshape5 : body ++ sec = ((body ++ toLE4 (e :: es).length) ++
          bspxDirBytes (bspxDir (body.length + 4 + 32 * (e :: es).length) (e :: es))) ++
          bspxBlobBytes (e :: es) := by
        rw [hsece]
        simp [List.append_assoc]
      have hpreB : (((body ++ toLE4 (e :: es).length) ++
          bspxDirBytes (bspxDir (body.length + 4 + 32 * (e :: es).length)
            (e :: es)))).length = body.length + 4 + 32 * (e :: es).length := by
        simp only [List.length_append, toLE4_length, hdirbX]
      have h2for := bspx_blob_slices (body ++ sec) (e :: es)
        ((body ++ toLE4 (e :: es).length) ++
          bspxDirBytes (bspxDir (body.length + 4 + 32 * (e :: es).length) (e :: es)))
        hshape5 hxval
      rw [hpreB] at h2for
      have h1for := bspxDir_names (e :: es) (body.length + 4 + 32 * (e :: es).length)
      have hfl' : (body ++ sec).length < 4294967296 := hfl
      have hentries := readBspxEntries_spec (body ++ sec) hfl' (e :: es)
        (bspxDir (body.length + 4 + 32 * (e :: es).length) (e :: es))
        (body ++ toLE4 (e :: es).length) (bspxBlobBytes (e :: es))
        hshape4 h1for h2for hxval
      have hl4 : (body ++ toLE4 (e :: es).length).length = body.length + 4 := by
        simp [toLE4_length]
      rw [hl4] at hentries
      unfold readBspx
      rw [if_neg hgt, h_count]
      exact hentries
  simp only [LoadBSPFile, h_lookup, h_dir, h_lumps, h_tail, h_bspx]

/-- C2: writing a document whose structural variant matches its format
descriptor with `WriteBSPFile` and loading the written bytes with
`LoadBSPFile` yields a document equal to the original in all lump contents
and in the extensible lump table, byte-exactly (under the registry
uniqueness invariant, the record-size validity of the lumps, and the
32-bit size bounds of the container fields). -/
theorem C2_load_write_roundtrip
    (reg : List bspversion_t) (v : bspversion_t) (d : bspdata_t)
    (lumps : List (List Nat))
    (hv : d.version = some v)
    (hbsp : d.bsp = variantFor v lumps)
    (hlen : lumps.length = v.lumps.length)
    (hrs : ∀ p ∈ v.lumps.zip lumps, p.1.size ≠ 0 ∧ p.2.length % p.1.size = 0)
    (hreg : registryResolves reg v)
    (hident : v.ident < 4294967296)
    (hver : ∀ n, v.version = some n → n < 4294967296)
    (hxval : ∀ p ∈ d.bspx_entries, bspxEntryValid p)
    (htot : ∀ bytes, WriteBSPFile d = some bytes → bytes.length < 4294967296) :
    ∃ bytes, WriteBSPFile d = some bytes ∧
      LoadBSPFile reg bytes =
        Except.ok ⟨some v, some v, d.bsp, d.bspx_entries⟩ := by
  have hlc : d.bsp.lumpContents = some lumps := by
    rw [hbsp]
    exact variantFor_lumpContents v lumps
  have hw : WriteBSPFile d = some (writeBytesFor v lumps d.bspx_entries) := by
    simp only [WriteBSPFile, hv, hlc]
    rw [if_pos hlen]
  refine ⟨writeBytesFor v lumps d.bspx_entries, hw, ?_⟩
  rw [hbsp]
  exact load_writeBytesFor reg v lumps d.bspx_entries hlen hrs hreg hident hver
    hxval (htot _ hw)

/-- Witness for C2: a concrete two-lump document with one extensible-lump
entry survives the write/load round trip. -/
theorem C2_load_write_roundtrip_witness :
    ∃ bytes, WriteBSPFile bspdata_wit = some bytes ∧
      LoadBSPFile [bspver_wit] bytes =
        Except.ok ⟨some bspver_wit, some bspver_wit, bspdata_wit.bsp,
          bspdata_wit.bspx_entries⟩ := by
  refine C2_load_write_roundtrip [bspver_wit] bspver_wit bspdata_wit
    [[65, 66], [1, 2, 3, 4]] rfl rfl (by decide) (by decide) ?_ (by decide)
    (by intro n h; simp [bspver_wit] at h) ?_ ?_
  · show List.find? (fun f => f.ident == bspver_wit.ident && f.version == none)
      [bspver_wit] = some bspver_wit
    decide
  · intro p hp
    rcases List.mem_singleton.mp hp with rfl
    exact ⟨by decide, [9], rfl, by decide⟩
  · intro bytes hb
    have h : bytes = (WriteBSPFile bspdata_wit).getD [] := by
      rw [hb]
      rfl
    rw [h]
    decide
